import Mathlib

/-!
# Verification of the stock-price report generators

Shallow embedding of the two Python batch pipelines of this repository,
`src/generate_diff.py` and `src/generate_report.py`, together with proofs
of the specified properties.

Modelling conventions:
* Python text is modelled as `List Char`; Python `None`-able values as `Option`.
* Python floats are modelled as exact rationals (`ℚ`); the file contents the
  pipelines read carry short decimal literals, for which `float` arithmetic is
  the intended real-number arithmetic described by the specification.
* The external `git` queries (`git log`, `git ls-files`, `git show`) are the
  Snapshot Accessor of the specification; they are modelled as environment
  fields holding the (stripped) text that the subprocess calls would return.
* All recursion is structural (fuel-based where Python iterates irregularly)
  so that every definition evaluates by kernel reduction on concrete input.
-/

namespace StockReport

/-- Characters treated as whitespace by Python's `str.strip()`. -/
def pyIsSpace (c : Char) : Bool :=
  c == ' ' || c == '\t' || c == '\n' || c == '\r' || c == '\x0b' || c == '\x0c'

/-- Model of Python `str.strip()`: remove whitespace from both ends. -/
def pyStrip (s : List Char) : List Char :=
  ((s.dropWhile pyIsSpace).reverse.dropWhile pyIsSpace).reverse

/-- Model of Python `str.split(sep)` for a one-character separator:
`"".split(sep) = [""]`, and in general one piece more than separators. -/
def splitOnChar (sep : Char) : List Char → List (List Char)
  | [] => [[]]
  | c :: cs =>
    match splitOnChar sep cs with
    | [] => [[]]
    | piece :: rest => if c = sep then [] :: piece :: rest else (c :: piece) :: rest

/-- Fuel-driven worker for `replaceAll`; the fuel is the length of the string,
which suffices because each step consumes at least one character.  (Structural
recursion on the fuel keeps the definition kernel-computable.) -/
def replaceAllFuel (pat rep : List Char) : Nat → List Char → List Char
  | 0, s => s
  | _ + 1, [] => []
  | n + 1, c :: cs =>
    if pat ≠ [] ∧ pat.isPrefixOf (c :: cs) = true then
      rep ++ replaceAllFuel pat rep n ((c :: cs).drop pat.length)
    else
      c :: replaceAllFuel pat rep n cs

/-- Model of Python `str.replace(pat, rep)`: replace every non-overlapping
occurrence of `pat`, scanning left to right.  (The sources only call it with
the non-empty patterns `"Price:"`, `"Updated:"` and `".txt"`.) -/
def replaceAll (pat rep s : List Char) : List Char :=
  replaceAllFuel pat rep s.length s

/-- Numeric value of a digit string, most significant digit first. -/
def digitsVal (ds : List Char) : Nat :=
  ds.foldl (fun a c => a * 10 + (c.toNat - 48)) 0

/-- Exponent part of a Python float literal: either nothing is left, or
an `e`/`E` followed by an optional sign and a non-empty digit string. -/
def pyExpPart (m : ℚ) (rest : List Char) : Option ℚ :=
  match rest with
  | [] => some m
  | c :: rest2 =>
    if c = 'e' ∨ c = 'E' then
      let (pos, rest3) : Bool × List Char :=
        match rest2 with
        | '+' :: r => (true, r)
        | '-' :: r => (false, r)
        | r => (true, r)
      let ds := rest3.takeWhile Char.isDigit
      let rest4 := rest3.dropWhile Char.isDigit
      if ds = [] ∨ rest4 ≠ [] then none
      else if pos then some (m * 10 ^ digitsVal ds) else some (m / 10 ^ digitsVal ds)
    else none

/-- Mantissa of a Python float literal: digits with an optional fractional
part, at least one digit overall, then an optional exponent part. -/
def pyMantissa (s : List Char) : Option ℚ :=
  let ip := s.takeWhile Char.isDigit
  let rest := s.dropWhile Char.isDigit
  match rest with
  | '.' :: rest2 =>
    let fp := rest2.takeWhile Char.isDigit
    let rest3 := rest2.dropWhile Char.isDigit
    if ip = [] ∧ fp = [] then none
    else pyExpPart ((digitsVal ip : ℚ) + (digitsVal fp : ℚ) / 10 ^ fp.length) rest3
  | _ => if ip = [] then none else pyExpPart (digitsVal ip : ℚ) rest

/-- Model of Python `float(s)` on finite decimal literals: surrounding
whitespace is stripped, then an optional sign and a decimal mantissa with an
optional exponent.  `inf`/`nan` and digit-group underscores are left out of
the model; no claim depends on them.  `none` models a raised `ValueError`. -/
def pyFloat (s : List Char) : Option ℚ :=
  match pyStrip s with
  | '+' :: r => pyMantissa r
  | '-' :: r => (pyMantissa r).map Neg.neg
  | r => pyMantissa r

/-- The line marker for prices (`line.startswith('Price:')`). -/
def pricePat : List Char := "Price:".data

/-- The line marker for timestamps (`line.startswith('Updated:')`). -/
def updatedPat : List Char := "Updated:".data

/-- One iteration of the `for line in lines` loop of `parse_price_file`
(identical in both source files): state is the pair `(price, timestamp)`. -/
def parse_line_step (st : Option ℚ × Option (List Char)) (line : List Char) :
    Option ℚ × Option (List Char) :=
  if pricePat.isPrefixOf line then
    match pyFloat (pyStrip (replaceAll pricePat [] line)) with
    | some p => (some p, st.2)
    | none => st
  else if updatedPat.isPrefixOf line then
    (st.1, some (pyStrip (replaceAll updatedPat [] line)))
  else st

/-- The whole line loop of `parse_price_file`, starting from `(None, None)`. -/
def parse_lines (lines : List (List Char)) : Option ℚ × Option (List Char) :=
  lines.foldl parse_line_step (none, none)

/-- `parse_price_file(content)` from both sources: `(None, None)` on falsy
content (absent file or empty string), otherwise the line scan over
`content.split('\n')`. -/
def parse_price_file (content : Option (List Char)) : Option ℚ × Option (List Char) :=
  match content with
  | none => (none, none)
  | some s => if s = [] then (none, none) else parse_lines (splitOnChar '\n' s)

example : parse_price_file (some "Price: 108.5\nUpdated: now".data) =
    (some (217 / 2), some "now".data) := by with_unfolding_all decide

example : parse_price_file (some "Price: abc".data) = (none, none) := by
  with_unfolding_all decide

example : pyFloat "-1.5e2".data = some (-150) := by with_unfolding_all decide

/-- `get_all_stock_files` from both sources, applied to the (stripped) stdout
of `git ls-files *.txt`: split into lines, keep the truthy lines other than
the literal path `main.txt`. -/
def get_all_stock_files (lsOut : List Char) : List (List Char) :=
  (splitOnChar '\n' lsOut).filter fun f => decide (f ≠ [] ∧ f ≠ "main.txt".data)

/-- Model of `os.path.basename` on the repository's POSIX-style paths:
the part after the last `/`. -/
def basename (p : List Char) : List Char :=
  (splitOnChar '/' p).getLastD p

/-- Ticker derivation used by both pipelines:
`os.path.basename(filepath).replace('.txt', '')`. -/
def tickerOf (p : List Char) : List Char :=
  replaceAll ".txt".data [] (basename p)

/-- `calculate_percentage_change(old_price, new_price)` from
`src/generate_diff.py`: `0` when the old price is `None` or zero, otherwise
the signed percentage change. -/
def calculate_percentage_change (old_price : Option ℚ) (new_price : ℚ) : ℚ :=
  match old_price with
  | none => 0
  | some p => if p = 0 then 0 else (new_price - p) / p * 100

/-- The Change Calculator contract realised by `generate_diff_report`
(lines 117–129): a `(absolute, percent)` pair when both observations carry a
price, absent otherwise. -/
def changeOf (previous current : Option ℚ) : Option (ℚ × ℚ) :=
  match previous, current with
  | some p, some c => some (c - p, calculate_percentage_change (some p) c)
  | _, _ => none

/-- One entry of the `changes` list built by `generate_diff_report`. -/
structure ChangeRecord where
  ticker : List Char
  previous_price : ℚ
  current_price : ℚ
  price_change : ℚ
  percent_change : ℚ
  previous_time : Option (List Char)
  current_time : Option (List Char)
deriving DecidableEq

/-- The body of the `for filepath in stock_files` loop of
`generate_diff_report`: fetch and parse both snapshots, and build a record
exactly when both prices are present. -/
def diffRecord (fetch : List Char → List Char → Option (List Char))
    (currentCommit previousCommit filepath : List Char) : Option ChangeRecord :=
  let cur := parse_price_file (fetch currentCommit filepath)
  let prev := parse_price_file (fetch previousCommit filepath)
  match cur.1, prev.1 with
  | some current_price, some previous_price =>
    some { ticker := tickerOf filepath
           previous_price := previous_price
           current_price := current_price
           price_change := current_price - previous_price
           percent_change := calculate_percentage_change (some previous_price) current_price
           previous_time := prev.2
           current_time := cur.2 }
  | _, _ => none

/-- `get_last_two_commits` applied to the (stripped) stdout of
`git log -2 --pretty=format:%H`: the first two lines, or `(None, None)`
when fewer than two lines exist. -/
def get_last_two_commits (logOut : List Char) : Option (List Char) × Option (List Char) :=
  match splitOnChar '\n' logOut with
  | c0 :: c1 :: _ => (some c0, some c1)
  | _ => (none, none)

/-- Stable descending sort by a rational key, modelling Python's
`list.sort(key=..., reverse=True)` (a stable sort by the language
specification; its output is uniquely determined by being a sorted, stable
permutation, so the stable `insertionSort` realises it exactly). -/
def sortByPct {α : Type} (key : α → ℚ) (l : List α) : List α :=
  l.insertionSort fun a b => key b ≤ key a

/-- `changes.sort(key=lambda x: abs(x['percent_change']), reverse=True)`. -/
def sortChanges (l : List ChangeRecord) : List ChangeRecord :=
  sortByPct (fun r => |r.percent_change|) l

/-- Environment of one `generate_diff.py` run: the stripped stdout of the two
`git` queries and the content fetcher (`git show commit:path`, stripped;
`none` models a `CalledProcessError` for a missing path). -/
structure DiffEnv where
  gitLog : List Char
  lsFiles : List Char
  fetch : List Char → List Char → Option (List Char)

/-- Observable result of `generate_diff_report`: one of the two early
returns (which print an error and write nothing), or completion with the
sorted change list that is written to `artifacts/changes.diff` and whose
counts are printed to the console. -/
inductive DiffOutcome where
  | errNotEnoughCommits : DiffOutcome
  | errNoStockFiles : DiffOutcome
  | done : List ChangeRecord → DiffOutcome
deriving DecidableEq

/-- `generate_diff_report()` from `src/generate_diff.py`. -/
def generate_diff_report (env : DiffEnv) : DiffOutcome :=
  match get_last_two_commits env.gitLog with
  | (some currentCommit, some previousCommit) =>
    if currentCommit = [] ∨ previousCommit = [] then .errNotEnoughCommits
    else
      let stock_files := get_all_stock_files env.lsFiles
      if stock_files = [] then .errNoStockFiles
      else .done (sortChanges (stock_files.filterMap
        (diffRecord env.fetch currentCommit previousCommit)))
  | _ => .errNotEnoughCommits

/-- The `__main__` block of `src/generate_diff.py`: exit code 1 if the
working directory is not a git repository, otherwise run
`generate_diff_report` and finish with exit code 0. -/
def diffMain (insideGitRepo : Bool) (env : DiffEnv) : Nat × Option DiffOutcome :=
  if insideGitRepo then (0, some (generate_diff_report env)) else (1, none)

/-- The report artifact of a diff run: the change list written to
`artifacts/changes.diff`, or `none` when the run returned early. -/
def diffArtifact (env : DiffEnv) : Option (List ChangeRecord) :=
  match generate_diff_report env with
  | .done changes => some changes
  | _ => none

/-- One entry of `get_commit_history`'s result: a commit hash and its
`%ai` timestamp (both non-empty in any real repository). -/
structure Commit where
  hash : List Char
  timestamp : List Char
deriving DecidableEq

/-- One entry of a ticker's price history as built by `get_price_history`. -/
structure PricePoint where
  timestamp : List Char
  price : ℚ
deriving DecidableEq

/-- Model of Python's truthiness fallback `x or y` on an optional string:
the string when it is present and non-empty, the default otherwise. -/
def pyOrStr (x : Option (List Char)) (d : List Char) : List Char :=
  match x with
  | some s => if s = [] then d else s
  | none => d

/-- `get_price_history(ticker, commits)` from `src/generate_report.py`:
for each commit (newest first) fetch `f"{ticker}.txt"`, parse it, and keep an
entry exactly when a price was parsed, with `timestamp or commit['timestamp']`
as its timestamp. -/
def get_price_history (fetch : List Char → List Char → Option (List Char))
    (ticker : List Char) (commits : List Commit) : List PricePoint :=
  commits.filterMap fun commit =>
    match (parse_price_file (fetch commit.hash (ticker ++ ".txt".data))).1 with
    | some price =>
      some { timestamp :=
               pyOrStr (parse_price_file (fetch commit.hash (ticker ++ ".txt".data))).2
                 commit.timestamp
             price := price }
    | none => none

/-- The statistics dictionary returned by `calculate_statistics`. -/
structure Statistics where
  current : ℚ
  previous : ℚ
  min : ℚ
  max : ℚ
  avg : ℚ
  change : ℚ
  percent_change : ℚ
deriving DecidableEq

/-- `calculate_statistics(history)` from `src/generate_report.py`: `None` on
an empty history, otherwise current/previous (previous defaulting to current
for a singleton), min, max, mean, absolute and percent change with the
zero-baseline guard. -/
def calculate_statistics (history : List PricePoint) : Option Statistics :=
  match history.map (fun h => h.price) with
  | [] => none
  | current_price :: rest =>
    let previous_price := match rest with | [] => current_price | p :: _ => p
    let min_price := rest.foldl min current_price
    let max_price := rest.foldl max current_price
    let avg_price := (current_price :: rest).sum / ((current_price :: rest).length : ℚ)
    some { current := current_price
           previous := previous_price
           min := min_price
           max := max_price
           avg := avg_price
           change := current_price - previous_price
           percent_change :=
             if previous_price ≠ 0 then
               (current_price - previous_price) / previous_price * 100
             else 0 }

/-- A parsed observation of one snapshot, as produced by `parse_price_file`:
an optional price and an optional timestamp. -/
structure ParsedObservation where
  price : Option ℚ
  timestamp : Option (List Char)
deriving DecidableEq

/-- The History Aggregator of the specification, as realised by the report
pipeline: drop the price-absent observations (as `get_price_history` does —
the timestamps do not influence any statistic) and apply
`calculate_statistics`. -/
def aggregate (observations : List ParsedObservation) : Option Statistics :=
  calculate_statistics (observations.filterMap fun o =>
    o.price.map fun p => { timestamp := pyOrStr o.timestamp [], price := p })

/-- Environment of one `generate_report.py` run: the parsed
`git log -10 --pretty=format:%H|%ai` history (newest first), the stripped
stdout of `git ls-files *.txt`, and the content fetcher. -/
structure ReportEnv where
  commits : List Commit
  lsFiles : List Char
  fetch : List Char → List Char → Option (List Char)

/-- One entry of the `all_stocks_data` list of `generate_html_report`. -/
structure StockData where
  ticker : List Char
  stats : Statistics
  history : List PricePoint
deriving DecidableEq

/-- The `all_stocks_data` list of `generate_html_report` before sorting:
tickers of the first 20 stock files (`stock_files[:20]`), each kept exactly
when its history yields statistics. -/
def all_stocks_data (env : ReportEnv) : List StockData :=
  (((get_all_stock_files env.lsFiles).take 20).map tickerOf).filterMap fun t =>
    let history := get_price_history env.fetch t env.commits
    (calculate_statistics history).map fun s =>
      { ticker := t, stats := s, history := history }

/-- `all_stocks_data.sort(key=lambda x: abs(x['stats']['percent_change']),
reverse=True)`. -/
def sortStocks (l : List StockData) : List StockData :=
  sortByPct (fun d => |d.stats.percent_change|) l

/-- The chart gallery of the HTML report: the `for stock in
all_stocks_data[:12]` loop emits one chart block per entry of the sorted
list's first twelve elements. -/
def chartGallery (env : ReportEnv) : List StockData :=
  (sortStocks (all_stocks_data env)).take 12

/-- The embedded chart specification of one ticker. -/
structure ChartEntry where
  labels : List (List Char)
  prices : List ℚ
deriving DecidableEq

/-- The `chart_data[ticker]` dictionary built by `generate_html_report`:
labels (timestamps truncated to 16 characters) and prices, both over
`reversed(history)` — oldest first. -/
def chartEntryOf (d : StockData) : ChartEntry :=
  { labels := d.history.reverse.map fun h => h.timestamp.take 16
    prices := d.history.reverse.map fun h => h.price }

/-- All tracked tickers (no `[:20]` truncation), as used for the report's
summary counts. -/
def trackedTickers (env : ReportEnv) : List (List Char) :=
  (get_all_stock_files env.lsFiles).map tickerOf

/-- Statistics of one ticker over the sampled history. -/
def statsOfTicker (env : ReportEnv) (t : List Char) : Option Statistics :=
  calculate_statistics (get_price_history env.fetch t env.commits)

/-- Observable result of `generate_html_report`: one of the two early
returns (`if not commits` — which fires only when no commit at all was
parsed — and `if not stock_files`, lines 132–143 of
`src/generate_report.py`; both print a message and write nothing), or
completion with the sorted stock data from which the written
`artifacts/report.html` document's gallery, table and counts derive. -/
inductive ReportOutcome where
  | errNoCommits : ReportOutcome
  | errNoStockFiles : ReportOutcome
  | done : List StockData → ReportOutcome
deriving DecidableEq

/-- `generate_html_report()` from `src/generate_report.py` (control flow and
aggregated data; the HTML templating around it is presentation only). -/
def generate_html_report (env : ReportEnv) : ReportOutcome :=
  if env.commits = [] then .errNoCommits
  else if get_all_stock_files env.lsFiles = [] then .errNoStockFiles
  else .done (sortStocks (all_stocks_data env))

/-- The `__main__` block of `src/generate_report.py`: it only calls
`generate_html_report()` — there is no `sys.exit` on any path, so the
process always finishes with exit code 0. -/
def reportMain (env : ReportEnv) : Nat × Option ReportOutcome :=
  (0, some (generate_html_report env))

/-- The report artifact of a report run: the data written to
`artifacts/report.html`, or `none` when the run returned early. -/
def reportArtifact (env : ReportEnv) : Option (List StockData) :=
  match generate_html_report env with
  | .done data => some data
  | _ => none

/-! ### Concrete run environments used as test inputs -/

/-- A repository with a single commit: `git log -2` prints one line. -/
def envOneCommit : DiffEnv :=
  { gitLog := "c1".data, lsFiles := "a.txt".data, fetch := fun _ _ => none }

/-- A repository with two commits and one tracked file whose content is
missing at both commits. -/
def envTwoCommitsNoPrices : DiffEnv :=
  { gitLog := "c1\nc2".data, lsFiles := "a.txt".data, fetch := fun _ _ => none }

/-- A repository whose only tracked `.txt` file is `x/main.txt`, a `main.txt`
inside a subdirectory, with a price at both commits. -/
def envSubdirMain : DiffEnv :=
  { gitLog := "c1\nc2".data
    lsFiles := "x/main.txt".data
    fetch := fun c f =>
      if f = "x/main.txt".data then
        if c = "c1".data then some "Price: 2".data else some "Price: 1".data
      else none }

/-- Twenty-one tracked ticker files; every ticker's price is constant except
the last-listed one, `zz.txt`, which doubles between the two commits. -/
def envManyTickers : ReportEnv :=
  { commits := [⟨"c1".data, "ta".data⟩, ⟨"c2".data, "tb".data⟩]
    lsFiles := ("a.txt\nb.txt\nc.txt\nd.txt\ne.txt\nf.txt\ng.txt\nh.txt\ni.txt\nj.txt\n" ++
      "k.txt\nl.txt\nm.txt\nn.txt\no.txt\np.txt\nq.txt\nr.txt\ns.txt\nt.txt\nzz.txt").data
    fetch := fun c f =>
      if f = "zz.txt".data then
        if c = "c1".data then some "Price: 2".data else some "Price: 1".data
      else some "Price: 1".data }

/-- One commit, one tracked file, a constant price. -/
def envOneStock : ReportEnv :=
  { commits := [⟨"c1".data, "ta".data⟩]
    lsFiles := "a.txt".data
    fetch := fun _ _ => some "Price: 1".data }

/-- The stock-data entry that `envOneStock` produces. -/
def stockOfEnvOneStock : StockData :=
  { ticker := "a".data
    stats := { current := 1, previous := 1, min := 1, max := 1, avg := 1,
               change := 0, percent_change := 0 }
    history := [⟨"ta".data, 1⟩] }

/-- A fetcher whose file content carries a price and a well-formed
`Updated:` line. -/
def fetchWithTimestamp : List Char → List Char → Option (List Char) :=
  fun _ _ => some "Price: 1\nUpdated: now".data

/-- A fetcher whose file content carries a price and an `Updated:` line with
nothing after the marker: the parsed timestamp is present but empty. -/
def fetchEmptyTimestamp : List Char → List Char → Option (List Char) :=
  fun _ _ => some "Price: 1\nUpdated:".data

/-! ### Properties of the ranking sort -/

/-- The output of `sortByPct` is pairwise descending in the key. -/
theorem sortByPct_pairwise {α : Type} (key : α → ℚ) (l : List α) :
    (sortByPct key l).Pairwise fun a b => key b ≤ key a := by
  haveI : IsTotal α fun a b => key b ≤ key a := ⟨fun a b => le_total (key b) (key a)⟩
  haveI : IsTrans α fun a b => key b ≤ key a :=
    ⟨fun _ _ _ h1 h2 => le_trans h2 h1⟩
  exact List.sorted_insertionSort _ l

/-- The output of `sortByPct` is a permutation of its input. -/
theorem sortByPct_perm {α : Type} (key : α → ℚ) (l : List α) :
    List.Perm (sortByPct key l) l :=
  List.perm_insertionSort _ l

/-- Stability of `sortByPct`: the sublist of elements with any fixed key
value is unchanged by sorting. -/
theorem sortByPct_filter {α : Type} (key : α → ℚ) (l : List α) (q : ℚ) :
    (sortByPct key l).filter (fun x => decide (key x = q)) =
      l.filter (fun x => decide (key x = q)) := by
  set p : α → Bool := fun x => decide (key x = q) with hp
  have hpair : (l.filter p).Pairwise fun a b => key b ≤ key a := by
    refine List.pairwise_of_forall_mem_list fun a ha b hb => ?_
    have ha2 : key a = q := by simpa [hp] using (List.mem_filter.mp ha).2
    have hb2 : key b = q := by simpa [hp] using (List.mem_filter.mp hb).2
    rw [ha2, hb2]
  have hsub : List.Sublist (l.filter p) (sortByPct key l) :=
    List.sublist_insertionSort hpair (List.filter_sublist l)
  have hsub2 : List.Sublist ((l.filter p).filter p) ((sortByPct key l).filter p) :=
    hsub.filter p
  rw [List.filter_eq_self.mpr fun a ha => (List.mem_filter.mp ha).2] at hsub2
  have hperm : List.Perm ((sortByPct key l).filter p) (l.filter p) :=
    (sortByPct_perm key l).filter p
  exact (hsub2.eq_of_length hperm.length_eq.symm).symm

/-- In a pairwise-ordered list, every element of the prefix dominates every
element of the remainder. -/
theorem pairwise_take_drop {α : Type} {r : α → α → Prop} {l : List α}
    (h : l.Pairwise r) (n : Nat) :
    ∀ a ∈ l.take n, ∀ b ∈ l.drop n, r a b := by
  rw [← List.take_append_drop n l] at h
  exact (List.pairwise_append.mp h).2.2

/-- Emptiness of the statistics is exactly emptiness of the history. -/
theorem calculate_statistics_eq_none (history : List PricePoint) :
    calculate_statistics history = none ↔ history = [] := by
  cases history <;> simp [calculate_statistics]

/-- Statistics of a one-entry history: everything degenerates to its price. -/
theorem calculate_statistics_singleton (x : PricePoint) :
    calculate_statistics [x] =
      some { current := x.price, previous := x.price, min := x.price, max := x.price,
             avg := x.price, change := x.price - x.price,
             percent_change :=
               if x.price ≠ 0 then (x.price - x.price) / x.price * 100 else 0 } := by
  simp [calculate_statistics]

/-! ### The claims -/

/-- C1: the change computation is absent iff an input is absent; on present
inputs the absolute change is the exact difference, and the percent change is
zero on a zero baseline and the signed relative change otherwise. -/
theorem C1_changeOf (previous current : Option ℚ) :
    (changeOf previous current = none ↔ previous = none ∨ current = none) ∧
    (∀ p c, previous = some p → current = some c →
      changeOf previous current =
        some (c - p, if p = 0 then 0 else (c - p) / p * 100)) := by
  constructor
  · cases previous <;> cases current <;> simp [changeOf]
  · rintro p c rfl rfl
    simp [changeOf, calculate_percentage_change]

/-- Witness for C1 at the concrete pair (100, 110). -/
theorem C1_changeOf_witness :
    changeOf (some (100 : ℚ)) (some 110) =
      some (110 - 100, if (100 : ℚ) = 0 then 0 else (110 - 100) / 100 * 100) :=
  (C1_changeOf (some 100) (some 110)).2 100 110 rfl rfl

/-- C2: the aggregate is absent exactly when the price-present filtered
sequence is empty, and a singleton observation with a present price yields
statistics with equal previous and current price and zero percent change. -/
theorem C2_aggregate (observations : List ParsedObservation) :
    (aggregate observations = none ↔
      observations.filterMap ParsedObservation.price = []) ∧
    (∀ o p, observations = [o] → o.price = some p →
      ∃ s, aggregate observations = some s ∧ s.previous = s.current ∧
        s.percent_change = 0) := by
  constructor
  · rw [aggregate, calculate_statistics_eq_none]
    simp [List.filterMap_eq_nil_iff, Option.map_eq_none']
  · rintro o p rfl hp
    rw [aggregate]
    simp only [List.filterMap_cons, List.filterMap_nil, hp, Option.map_some']
    rw [calculate_statistics_singleton]
    refine ⟨_, rfl, rfl, ?_⟩
    split <;> simp

/-- Witness for C2 at the singleton observation with price 5. -/
theorem C2_aggregate_witness :
    ∃ s, aggregate [⟨some 5, none⟩] = some s ∧ s.previous = s.current ∧
      s.percent_change = 0 :=
  (C2_aggregate [⟨some 5, none⟩]).2 ⟨some 5, none⟩ 5 rfl rfl

/-- C6: the ranking sort is pairwise descending in the magnitude of the
percent change, permutes its input, and is stable: the records of any fixed
magnitude appear in their original order. -/
theorem C6_sort_stable (l : List ChangeRecord) :
    (sortChanges l).Pairwise
      (fun a b => |b.percent_change| ≤ |a.percent_change|) ∧
    List.Perm (sortChanges l) l ∧
    ∀ q : ℚ, (sortChanges l).filter (fun r => decide (|r.percent_change| = q)) =
      l.filter (fun r => decide (|r.percent_change| = q)) :=
  ⟨sortByPct_pairwise _ l, sortByPct_perm _ l, fun q => sortByPct_filter _ l q⟩

/-- C7: a history of prices 100, 90, 80 (newest first) aggregates to
min 80, max 100, average 90, current 100, previous 90, and a percent change
of (100 − 90)/90·100, which is within 0.01 of 11.11. -/
theorem C7_scenario :
    aggregate [⟨some 100, some "t1".data⟩, ⟨some 90, some "t2".data⟩,
        ⟨some 80, some "t3".data⟩] =
      some { current := 100, previous := 90, min := 80, max := 100, avg := 90,
             change := 10, percent_change := (100 - 90) / 90 * 100 } ∧
    |((100 : ℚ) - 90) / 90 * 100 - 11.11| < 0.01 := by
  constructor
  · with_unfolding_all decide
  · rw [abs_lt]
    constructor <;> norm_num

/-- C3, counterexample: with a single historical revision the diff run does
abort early and writes no artifact, but the process finishes with exit code
0 — it prints an error message instead of signalling non-zero (the only
`sys.exit(1)` in the sources guards the not-a-git-repository case); and the
report run does not abort at all on a single revision: its guard fires only
at zero commits, so it completes, writes `report.html`, and exits 0. -/
theorem C3_exit_cex :
    ((splitOnChar '\n' envOneCommit.gitLog).length < 2 ∧
      diffMain true envOneCommit = (0, some .errNotEnoughCommits) ∧
      diffArtifact envOneCommit = none) ∧
    (envOneStock.commits.length < 2 ∧
      generate_html_report envOneStock = .done [stockOfEnvOneStock] ∧
      reportArtifact envOneStock = some [stockOfEnvOneStock] ∧
      reportMain envOneStock = (0, some (.done [stockOfEnvOneStock]))) := by
  with_unfolding_all decide

/-- C3, amended: on a well-formed history listing (no empty hash lines), a
diff run with fewer than two revisions or no discovered ticker files aborts
early with no report artifact but still exits with code 0, and any other
diff run completes and produces the artifact whose counts are echoed to the
console; a report run aborts early — also with no artifact and exit code 0 —
only when no commit at all exists or no ticker files are discovered, and
completes and writes its artifact otherwise, in particular on a
single-revision history. -/
theorem C3_exit_amended (env : DiffEnv) (renv : ReportEnv)
    (hwf : [] ∉ splitOnChar '\n' env.gitLog) :
    ((((splitOnChar '\n' env.gitLog).length < 2 ∨ get_all_stock_files env.lsFiles = []) →
      diffArtifact env = none ∧ (diffMain true env).1 = 0) ∧
    (¬((splitOnChar '\n' env.gitLog).length < 2 ∨ get_all_stock_files env.lsFiles = []) →
      ∃ changes, generate_diff_report env = .done changes ∧
        diffArtifact env = some changes)) ∧
    (((renv.commits = [] ∨ get_all_stock_files renv.lsFiles = []) →
      reportArtifact renv = none ∧ (reportMain renv).1 = 0) ∧
    (¬(renv.commits = [] ∨ get_all_stock_files renv.lsFiles = []) →
      reportArtifact renv = some (sortStocks (all_stocks_data renv)) ∧
        (reportMain renv).1 = 0)) := by
  have hreport :
      ((renv.commits = [] ∨ get_all_stock_files renv.lsFiles = []) →
        reportArtifact renv = none ∧ (reportMain renv).1 = 0) ∧
      (¬(renv.commits = [] ∨ get_all_stock_files renv.lsFiles = []) →
        reportArtifact renv = some (sortStocks (all_stocks_data renv)) ∧
          (reportMain renv).1 = 0) := by
    constructor
    · rintro (hc | hf)
      · simp [reportArtifact, generate_html_report, hc, reportMain]
      · by_cases hc : renv.commits = [] <;>
          simp [reportArtifact, generate_html_report, hc, hf, reportMain]
    · intro hcond
      have hc : renv.commits ≠ [] := fun h => hcond (Or.inl h)
      have hf : get_all_stock_files renv.lsFiles ≠ [] := fun h => hcond (Or.inr h)
      simp [reportArtifact, generate_html_report, hc, hf, reportMain]
  refine ⟨?_, hreport⟩
  rcases hsplit : splitOnChar '\n' env.gitLog with _ | ⟨c0, _ | ⟨c1, rest⟩⟩
  · refine ⟨fun _ => ?_, fun hc => absurd (Or.inl (by simp)) hc⟩
    simp [diffArtifact, generate_diff_report, get_last_two_commits, hsplit, diffMain]
  · refine ⟨fun _ => ?_, fun hc => absurd (Or.inl (by simp)) hc⟩
    simp [diffArtifact, generate_diff_report, get_last_two_commits, hsplit, diffMain]
  · have hc0 : c0 ≠ [] := fun h => hwf (by rw [hsplit, h]; exact List.mem_cons_self _ _)
    have hc1 : c1 ≠ [] := fun h => hwf (by rw [hsplit, h]; simp)
    constructor
    · intro hcond
      rcases hcond with hlen | hfiles
      · simp at hlen; omega
      · simp [diffArtifact, generate_diff_report, get_last_two_commits, hsplit,
          hc0, hc1, hfiles, diffMain]
    · intro hcond
      have hfiles : get_all_stock_files env.lsFiles ≠ [] := fun h => hcond (Or.inr h)
      refine ⟨sortChanges ((get_all_stock_files env.lsFiles).filterMap
          (diffRecord env.fetch c0 c1)), ?_, ?_⟩ <;>
        simp [diffArtifact, generate_diff_report, get_last_two_commits, hsplit,
          hc0, hc1, hfiles]

/-- Witness for the amended C3: a two-commit diff run with one tracked file
completes, and a one-commit report run with one tracked file completes with
its artifact and exit code 0. -/
theorem C3_exit_amended_witness :
    (∃ changes, generate_diff_report envTwoCommitsNoPrices = .done changes ∧
      diffArtifact envTwoCommitsNoPrices = some changes) ∧
    (reportArtifact envOneStock = some (sortStocks (all_stocks_data envOneStock)) ∧
      (reportMain envOneStock).1 = 0) :=
  ⟨(C3_exit_amended envTwoCommitsNoPrices envOneStock
      (by with_unfolding_all decide)).1.2 (by with_unfolding_all decide),
   (C3_exit_amended envTwoCommitsNoPrices envOneStock
      (by with_unfolding_all decide)).2.2 (by with_unfolding_all decide)⟩

/-- C4, counterexample: on content with a parseable price line followed by a
price line whose numeric parse fails, the parser keeps the earlier value —
the price is the previously parsed 5, not absent. -/
theorem C4_parse_failure_cex :
    parse_price_file (some "Price: 5\nPrice: abc".data) = (some 5, none) ∧
    some (5 : ℚ) ≠ (none : Option ℚ) := by
  with_unfolding_all decide

/-- C4, amended: a price line whose numeric parse fails leaves the scan state
unchanged (so the price stays whatever earlier lines produced, absent when
none parsed) and the scan of the remaining lines proceeds as if the line were
not there; the parse itself is total, so malformed content never fails the
run. -/
theorem C4_parse_failure_amended (pre post : List (List Char)) (line : List Char)
    (h1 : pricePat.isPrefixOf line = true)
    (h2 : pyFloat (pyStrip (replaceAll pricePat [] line)) = none) :
    parse_lines (pre ++ line :: post) = parse_lines (pre ++ post) := by
  have hstep : ∀ st, parse_line_step st line = st := by
    intro st
    simp [parse_line_step, h1, h2]
  simp [parse_lines, List.foldl_append, hstep]

/-- Witness for the amended C4 at the unparsable line `Price: x`. -/
theorem C4_parse_failure_amended_witness :
    parse_lines ([] ++ "Price: x".data :: []) = parse_lines ([] ++ []) :=
  C4_parse_failure_amended [] [] "Price: x".data (by with_unfolding_all decide)
    (by with_unfolding_all decide)

/-- C5, counterexample: the parser applies `line.replace('Price:', '')`,
which removes every occurrence of the marker, not just the leading one: on
the line `Price:1Price:2` the remainder after the leading marker does not
parse as a float, yet the parser yields 12. -/
theorem C5_price_line_cex :
    parse_price_file (some "Price:1Price:2".data) = (some 12, none) ∧
    pyFloat (pyStrip ("Price:1Price:2".data.drop pricePat.length)) = none := by
  with_unfolding_all decide

/-- C5, amended: a line beginning with the price marker yields the line with
every occurrence of the marker removed, trimmed and parsed as a float; the
last successfully parsing price line wins (later non-price lines do not
disturb the price), so a lone valid price line is recovered exactly; and a
line matching neither marker leaves the scan state unchanged. -/
theorem C5_price_line_amended :
    (∀ (pre post : List (List Char)) (line : List Char) (x : ℚ),
      pricePat.isPrefixOf line = true →
      pyFloat (pyStrip (replaceAll pricePat [] line)) = some x →
      (∀ l ∈ post, pricePat.isPrefixOf l = false) →
      (parse_lines (pre ++ line :: post)).1 = some x) ∧
    (∀ st line, pricePat.isPrefixOf line = false → updatedPat.isPrefixOf line = false →
      parse_line_step st line = st) := by
  have hfst : ∀ (post : List (List Char)) (st : Option ℚ × Option (List Char)),
      (∀ l ∈ post, pricePat.isPrefixOf l = false) →
      (post.foldl parse_line_step st).1 = st.1 := by
    intro post
    induction post with
    | nil => intro st _; rfl
    | cons l ls ih =>
      intro st h
      have hl := h l (List.mem_cons_self _ _)
      rw [List.foldl_cons, ih _ fun a ha => h a (List.mem_cons_of_mem _ ha)]
      by_cases hu : updatedPat.isPrefixOf l <;> simp [parse_line_step, hl, hu]
  constructor
  · intro pre post line x h1 h2 hpost
    rw [parse_lines, List.foldl_append, List.foldl_cons,
      show parse_line_step (pre.foldl parse_line_step (none, none)) line =
        (some x, (pre.foldl parse_line_step (none, none)).2) by
          simp [parse_line_step, h1, h2]]
    exact hfst post _ hpost
  · intro st line h1 h2
    simp [parse_line_step, h1, h2]

/-- Witness for the amended C5: a valid price line between an update line
and a junk line is recovered exactly. -/
theorem C5_price_line_amended_witness :
    (parse_lines (["Updated: now".data] ++ "Price: 3.5".data :: ["garbage".data])).1 =
      some (7 / 2) :=
  C5_price_line_amended.1 ["Updated: now".data] ["garbage".data] "Price: 3.5".data (7 / 2)
    (by with_unfolding_all decide) (by with_unfolding_all decide)
    (by with_unfolding_all decide)

/-- C8, counterexample: charts are selected among `stock_files[:20]` only.
With twenty-one tracked tickers, `zz` is tracked and is strictly the
biggest mover (|100| versus |0| for every other ticker), yet no chart block
is produced for it. -/
theorem C8_gallery_cex :
    "zz".data ∈ trackedTickers envManyTickers ∧
    statsOfTicker envManyTickers "zz".data =
      some { current := 2, previous := 1, min := 1, max := 2, avg := 3 / 2,
             change := 1, percent_change := 100 } ∧
    (∀ t ∈ trackedTickers envManyTickers, t ≠ "zz".data →
      statsOfTicker envManyTickers t =
        some { current := 1, previous := 1, min := 1, max := 1, avg := 1,
               change := 0, percent_change := 0 }) ∧
    |(0 : ℚ)| < |(100 : ℚ)| ∧
    "zz".data ∉ (chartGallery envManyTickers).map StockData.ticker := by
  with_unfolding_all decide

/-- C8, amended: the chart gallery holds at most twelve blocks, each block
comes from the processed data of the first twenty discovered ticker files,
the gallery entries dominate (in magnitude of percent change) everything the
ranking left out of the gallery, and each block's label and price arrays are
the history reversed into chronological oldest-first order. -/
theorem C8_gallery_amended (env : ReportEnv) :
    (chartGallery env).length ≤ 12 ∧
    (∀ d ∈ chartGallery env, d ∈ all_stocks_data env) ∧
    (∀ d ∈ chartGallery env, ∀ x ∈ (sortStocks (all_stocks_data env)).drop 12,
      |x.stats.percent_change| ≤ |d.stats.percent_change|) ∧
    (∀ d ∈ chartGallery env,
      (chartEntryOf d).prices = (d.history.map PricePoint.price).reverse ∧
      (chartEntryOf d).labels = (d.history.map fun h => h.timestamp.take 16).reverse) := by
  refine ⟨List.length_take_le 12 _, ?_, ?_, ?_⟩
  · intro d hd
    exact (sortByPct_perm _ _).subset (List.mem_of_mem_take hd)
  · intro d hd x hx
    exact pairwise_take_drop (sortByPct_pairwise _ (all_stocks_data env)) 12 d hd x hx
  · intro d _
    constructor <;> simp [chartEntryOf, List.map_reverse]

/-- Witness for the amended C8 on a one-ticker repository. -/
theorem C8_gallery_amended_witness :
    stockOfEnvOneStock ∈ all_stocks_data envOneStock ∧
    (chartEntryOf stockOfEnvOneStock).prices =
      (stockOfEnvOneStock.history.map PricePoint.price).reverse :=
  ⟨(C8_gallery_amended envOneStock).2.1 stockOfEnvOneStock (by with_unfolding_all decide),
   ((C8_gallery_amended envOneStock).2.2.2 stockOfEnvOneStock
      (by with_unfolding_all decide)).1⟩

/-- C9, counterexample: only the exact path `main.txt` is excluded by
discovery.  A tracked `x/main.txt` passes the filter, its ticker is `main`
(the basename with `.txt` removed), and the diff pipeline produces a change
record for it. -/
theorem C9_main_cex :
    generate_diff_report envSubdirMain =
      .done [{ ticker := "main".data, previous_price := 1, current_price := 2,
               price_change := 1, percent_change := 100,
               previous_time := none, current_time := none }] ∧
    "main.txt".data ∉ get_all_stock_files envSubdirMain.lsFiles := by
  with_unfolding_all decide

/-- C9, amended: discovery never returns the exact path `main.txt`, so the
repository-root `main.txt` is excluded from both pipelines; a `main.txt`
inside a subdirectory is not excluded, and can still yield records for the
ticker `main`. -/
theorem C9_main_amended (lsOut : List Char) :
    "main.txt".data ∉ get_all_stock_files lsOut := by
  intro h
  have h2 := (List.mem_filter.mp h).2
  simp at h2

/-- C10, counterexample: an `Updated:` line with nothing after the marker
parses to a present-but-empty timestamp, yet the history entry carries the
commit's timestamp `ta`, not the parsed empty string — Python's `or`
replaces every falsy value, not just an absent one. -/
theorem C10_timestamp_cex :
    parse_price_file (some "Price: 1\nUpdated:".data) = (some 1, some []) ∧
    get_price_history fetchEmptyTimestamp "t".data [⟨"c1".data, "ta".data⟩] =
      [⟨"ta".data, 1⟩] ∧
    ("ta".data : List Char) ≠ [] := by
  with_unfolding_all decide

/-- C10, amended: every history entry stems from a commit whose snapshot
parsed to a present price, and its (always-present) timestamp is the parsed
`Updated:` value when that is present and non-empty, and the commit's own
timestamp otherwise. -/
theorem C10_timestamp_amended (fetch : List Char → List Char → Option (List Char))
    (ticker : List Char) (commits : List Commit) :
    ∀ e ∈ get_price_history fetch ticker commits,
      ∃ c ∈ commits,
        (parse_price_file (fetch c.hash (ticker ++ ".txt".data))).1 = some e.price ∧
        (((parse_price_file (fetch c.hash (ticker ++ ".txt".data))).2 = some e.timestamp ∧
            e.timestamp ≠ []) ∨
          (e.timestamp = c.timestamp ∧
            ((parse_price_file (fetch c.hash (ticker ++ ".txt".data))).2 = none ∨
             (parse_price_file (fetch c.hash (ticker ++ ".txt".data))).2 = some []))) := by
  induction commits with
  | nil => intro e he; simp [get_price_history] at he
  | cons c cs ih =>
    intro e he
    rw [get_price_history, List.filterMap_cons] at he
    rcases hp : (parse_price_file (fetch c.hash (ticker ++ ".txt".data))).1 with _ | price
    · rw [hp] at he
      obtain ⟨c2, hc2, hrest⟩ := ih e he
      exact ⟨c2, List.mem_cons_of_mem _ hc2, hrest⟩
    · rw [hp] at he
      cases he with
      | head =>
        refine ⟨c, List.mem_cons_self _ _, hp, ?_⟩
        rcases ht : (parse_price_file (fetch c.hash (ticker ++ ".txt".data))).2 with _ | ts
        · exact Or.inr ⟨by simp [pyOrStr], Or.inl rfl⟩
        · by_cases hts : ts = []
          · exact Or.inr ⟨by simp [pyOrStr, hts], Or.inr (by rw [hts])⟩
          · exact Or.inl ⟨by simp [pyOrStr, hts], by simp [pyOrStr, hts]⟩
      | tail _ he =>
        obtain ⟨c2, hc2, hrest⟩ := ih e he
        exact ⟨c2, List.mem_cons_of_mem _ hc2, hrest⟩

/-- Witness for the amended C10 at a snapshot with a well-formed update
line: the entry's timestamp is the parsed one. -/
theorem C10_timestamp_amended_witness :
    ∃ c ∈ [Commit.mk "c1".data "ta".data],
      (parse_price_file (fetchWithTimestamp c.hash ("t".data ++ ".txt".data))).1 =
        some (PricePoint.mk "now".data 1).price ∧
      (((parse_price_file (fetchWithTimestamp c.hash ("t".data ++ ".txt".data))).2 =
            some (PricePoint.mk "now".data 1).timestamp ∧
          (PricePoint.mk "now".data 1).timestamp ≠ []) ∨
        ((PricePoint.mk "now".data 1).timestamp = c.timestamp ∧
          ((parse_price_file (fetchWithTimestamp c.hash ("t".data ++ ".txt".data))).2 = none ∨
           (parse_price_file (fetchWithTimestamp c.hash ("t".data ++ ".txt".data))).2 =
             some []))) :=
  C10_timestamp_amended fetchWithTimestamp "t".data [Commit.mk "c1".data "ta".data]
    (PricePoint.mk "now".data 1) (by with_unfolding_all decide)

end StockReport
